import Mathlib

/-!
DadApp: reminder store, quiet hours and notification scheduling.

A shallow embedding of the `DadApp` class of `script.js`.  The reminder
collection is a list of records, the platform (timers, notification
permission, local storage, shown notifications) is explicit state, and every
method of the class that the properties below talk about is a function on that
state.  DOM rendering (`updateStats`, `renderReminders`, `showNotification`,
modal handling) has no effect on the modelled state and is left out.
-/

/-! ## JavaScript values used by the program -/

/-- A JavaScript number as far as this program produces one: an integer or `NaN`. -/
inductive JSNum where
  | nan : JSNum
  | int (i : Int) : JSNum
deriving DecidableEq, Repr

namespace JSNum

/-- JavaScript `a <= b`: false as soon as one side is `NaN`. -/
def le : JSNum → JSNum → Bool
  | int a, int b => decide (a ≤ b)
  | _, _ => false

/-- JavaScript `a < b`: false as soon as one side is `NaN`. -/
def lt : JSNum → JSNum → Bool
  | int a, int b => decide (a < b)
  | _, _ => false

/-- JavaScript `a >= b`: false as soon as one side is `NaN`. -/
def ge : JSNum → JSNum → Bool
  | int a, int b => decide (b ≤ a)
  | _, _ => false

/-- JavaScript `a * b` on integers and `NaN`. -/
def mul : JSNum → JSNum → JSNum
  | int a, int b => int (a * b)
  | _, _ => nan

end JSNum

/-- The characters `String.prototype.trim` and `parseInt` skip: ECMAScript
`WhiteSpace` and `LineTerminator`. -/
def isJsWhiteSpace (c : Char) : Bool :=
  c.toNat = 0x09 || c.toNat = 0x0A || c.toNat = 0x0B || c.toNat = 0x0C ||
  c.toNat = 0x0D || c.toNat = 0x20 || c.toNat = 0xA0 || c.toNat = 0x1680 ||
  (0x2000 ≤ c.toNat && c.toNat ≤ 0x200A) || c.toNat = 0x2028 ||
  c.toNat = 0x2029 || c.toNat = 0x202F || c.toNat = 0x205F ||
  c.toNat = 0x3000 || c.toNat = 0xFEFF

/-- The method `String.prototype.trim`, on the list of characters. -/
def jsTrim (s : List Char) : List Char :=
  ((s.dropWhile isJsWhiteSpace).reverse.dropWhile isJsWhiteSpace).reverse

/-- Value of a character as a digit in the given radix (10 or 16), if it is one. -/
def digitValue (radix : Nat) (c : Char) : Option Nat :=
  if 48 ≤ c.toNat ∧ c.toNat ≤ 57 then some (c.toNat - 48)
  else if radix = 16 ∧ 97 ≤ c.toNat ∧ c.toNat ≤ 102 then some (c.toNat - 87)
  else if radix = 16 ∧ 65 ≤ c.toNat ∧ c.toNat ≤ 70 then some (c.toNat - 55)
  else none

/-- Reads the longest run of digits at the front of `s`: `acc` is the value
read so far and `seen` tells whether a digit was read. -/
def readDigits (radix : Nat) : List Char → Nat → Bool → Option Nat
  | [], acc, seen => if seen then some acc else none
  | c :: cs, acc, seen =>
    match digitValue radix c with
    | some d => readDigits radix cs (acc * radix + d) true
    | none => if seen then some acc else none

/-- Digits of `parseInt` after the sign: a `0x`/`0X` start selects radix 16. -/
def parseUnsigned : List Char → Option Nat
  | '0' :: 'x' :: cs => readDigits 16 cs 0 false
  | '0' :: 'X' :: cs => readDigits 16 cs 0 false
  | cs => readDigits 10 cs 0 false

/-- The global `parseInt(s)` with no radix argument: leading white space is
skipped, then an optional sign, then the longest run of digits; no digit gives
`NaN`.  The result is exact, which agrees with JavaScript for every value below
`2^53` (all hour and minute strings). -/
def parseInt (s : String) : JSNum :=
  match s.data.dropWhile isJsWhiteSpace with
  | '-' :: cs =>
    match parseUnsigned cs with
    | some n => JSNum.int (-(n : Int))
    | none => JSNum.nan
  | '+' :: cs =>
    match parseUnsigned cs with
    | some n => JSNum.int n
    | none => JSNum.nan
  | cs =>
    match parseUnsigned cs with
    | some n => JSNum.int n
    | none => JSNum.nan

/-- The expression `s.split(':')[0]`: the part of `s` before its first colon. -/
def splitColonFirst (s : String) : String :=
  String.mk (s.data.takeWhile (fun c => c != ':'))

/-! ## Quiet hours -/

/-- Method `isInQuietHours(currentHour, quietStart, quietEnd)`. -/
def isInQuietHours (currentHour quietStart quietEnd : JSNum) : Bool :=
  if JSNum.le quietStart quietEnd then
    JSNum.ge currentHour quietStart && JSNum.lt currentHour quietEnd
  else
    JSNum.ge currentHour quietStart || JSNum.lt currentHour quietEnd

/-! ## Data model -/

/-- A reminder record, with the fields of the object literals built by
`handleQuickAdd` and `handleAddReminder`, in their order. -/
structure Reminder where
  id : String
  text : String
  category : String
  priority : String
  active : Bool
  notificationsEnabled : Bool
  createdAt : String
  completed : Bool
deriving DecidableEq, Repr

/-- The settings object `this.notificationSettings`. -/
structure NotificationSettings where
  enabled : Bool
  interval : String
  quietStart : String
  quietEnd : String
deriving DecidableEq, Repr

/-- The value of `Notification.permission`. -/
inductive Permission where
  | default
  | granted
  | denied
deriving DecidableEq, Repr

/-- What `new Notification(title, options)` is called with. -/
structure BrowserNotification where
  title : String
  body : String
  tag : String
  requireInteraction : Bool
deriving DecidableEq, Repr

/-- The state of a `DadApp` instance together with the platform state its
methods read and write: the live interval timers and pending timeouts (each
with the handle the platform gave it and its delay in milliseconds), the
number of timers created so far, local storage, the notification capability and the notifications constructed so far, oldest first.  A pending
timeout holds the reminder its callback closes over; the callback reads only
`text` and `id`, which no method assigns after creation. -/
structure DadApp where
  reminders : List Reminder
  notificationInterval : Option Nat
  notificationSettings : NotificationSettings
  notificationInWindow : Bool
  permission : Permission
  localStorage : List (String × String)
  timersCreated : Nat
  intervals : List (Nat × JSNum)
  timeouts : List (Nat × Nat × Reminder)
  shown : List BrowserNotification
deriving DecidableEq, Repr

/-! ## JSON serialization of the stored values -/

/-- The double quote character. -/
def dquote : Char := Char.ofNat 34

/-- The backslash character. -/
def bslash : Char := Char.ofNat 92

/-- A hexadecimal digit, lower case. -/
def hexDigit (n : Nat) : Char :=
  if n < 10 then Char.ofNat (48 + n) else Char.ofNat (87 + n)

/-- How `JSON.stringify` writes one character inside a string. -/
def jsonEscapeChar (c : Char) : List Char :=
  if c = dquote then [bslash, dquote]
  else if c = bslash then [bslash, bslash]
  else if c.toNat = 8 then [bslash, 'b']
  else if c.toNat = 12 then [bslash, 'f']
  else if c.toNat = 10 then [bslash, 'n']
  else if c.toNat = 13 then [bslash, 'r']
  else if c.toNat = 9 then [bslash, 't']
  else if c.toNat < 32 then
    [bslash, 'u', '0', '0', hexDigit (c.toNat / 16), hexDigit (c.toNat % 16)]
  else [c]

/-- The result of `JSON.stringify` on a string. -/
def jsonString (s : String) : String :=
  String.mk ([dquote] ++ s.data.flatMap jsonEscapeChar ++ [dquote])

/-- The result of `JSON.stringify` on a boolean. -/
def jsonBool (b : Bool) : String :=
  if b then "true" else "false"

/-- One `"key":value` member of an object. -/
def jsonMember (key value : String) : String :=
  jsonString key ++ ":" ++ value

/-- An object with the given members. -/
def jsonObject (members : List String) : String :=
  "\x7b" ++ ",".intercalate members ++ "\x7d"

/-- The result of `JSON.stringify` on a reminder: members in creation order. -/
def jsonReminder (r : Reminder) : String :=
  jsonObject
    [ jsonMember "id" (jsonString r.id),
      jsonMember "text" (jsonString r.text),
      jsonMember "category" (jsonString r.category),
      jsonMember "priority" (jsonString r.priority),
      jsonMember "active" (jsonBool r.active),
      jsonMember "notificationsEnabled" (jsonBool r.notificationsEnabled),
      jsonMember "createdAt" (jsonString r.createdAt),
      jsonMember "completed" (jsonBool r.completed) ]

/-- The result of `JSON.stringify(this.reminders)`. -/
def jsonReminders (rs : List Reminder) : String :=
  "[" ++ ",".intercalate (rs.map jsonReminder) ++ "]"

/-- The result of `JSON.stringify(this.notificationSettings)`. -/
def jsonSettings (s : NotificationSettings) : String :=
  jsonObject
    [ jsonMember "enabled" (jsonBool s.enabled),
      jsonMember "interval" (jsonString s.interval),
      jsonMember "quietStart" (jsonString s.quietStart),
      jsonMember "quietEnd" (jsonString s.quietEnd) ]

/-- The call `localStorage.setItem(key, value)`. -/
def setItem (key value : String) (store : List (String × String)) : List (String × String) :=
  (key, value) :: store.filter (fun kv => kv.1 != key)

/-- The call `localStorage.getItem(key)`. -/
def getItem (key : String) (store : List (String × String)) : Option String :=
  (store.find? (fun kv => kv.1 == key)).map (fun kv => kv.2)

/-! ## JSON.parse -/

/-- The exception `JSON.parse` throws on a text that is not JSON. -/
inductive JSError where
  | syntaxError
deriving DecidableEq, Repr

/-- What `JSON.parse` reads from a text.  A string is its UTF-16 code units, a
number is kept as its text, and the members of an object are listed as
written. -/
inductive JSValue where
  | null
  | bool (b : Bool)
  | number (text : List Char)
  | string (units : List Nat)
  | array (items : List JSValue)
  | object (members : List (List Nat × JSValue))

/-- The UTF-16 code units of a character. -/
def utf16 (c : Char) : List Nat :=
  if c.toNat < 0x10000 then [c.toNat]
  else [0xD800 + (c.toNat - 0x10000) / 0x400, 0xDC00 + (c.toNat - 0x10000) % 0x400]

/-- The UTF-16 code units of a string. -/
def codeUnits (s : String) : List Nat :=
  s.data.flatMap utf16

/-- The character that opens an array. -/
def openBracket : Char := Char.ofNat 91

/-- The character that closes an array. -/
def closeBracket : Char := Char.ofNat 93

/-- The character that opens an object. -/
def openBrace : Char := Char.ofNat 123

/-- The character that closes an object. -/
def closeBrace : Char := Char.ofNat 125

/-- JSON white space: space, tab, line feed, carriage return. -/
def isJsonWhiteSpace (c : Char) : Bool :=
  c.toNat = 0x20 || c.toNat = 0x09 || c.toNat = 0x0A || c.toNat = 0x0D

/-- A decimal digit. -/
def isDigit (c : Char) : Bool :=
  48 ≤ c.toNat && c.toNat ≤ 57

/-- Where the scanner is inside a JSON number:
`-? (0 | [1-9][0-9]*) (. [0-9]+)? ([eE] [+-]? [0-9]+)?`. -/
inductive NumState where
  | minus
  | zero
  | int
  | fracStart
  | frac
  | expStart
  | expSign
  | exp
deriving DecidableEq, Repr

namespace NumState

/-- The number read so far is complete. -/
def accepting : NumState → Bool
  | zero => true
  | int => true
  | frac => true
  | exp => true
  | _ => false

/-- The state after one more character of the number, if the character can
continue it. -/
def next (st : NumState) (c : Char) : Option NumState :=
  match st with
  | minus => if c = '0' then some zero else if isDigit c then some int else none
  | zero =>
    if c = '.' then some fracStart else if c = 'e' ∨ c = 'E' then some expStart else none
  | int =>
    if isDigit c then some int else if c = '.' then some fracStart
    else if c = 'e' ∨ c = 'E' then some expStart else none
  | fracStart => if isDigit c then some frac else none
  | frac => if isDigit c then some frac else if c = 'e' ∨ c = 'E' then some expStart else none
  | expStart => if c = '+' ∨ c = '-' then some expSign else if isDigit c then some exp else none
  | expSign => if isDigit c then some exp else none
  | exp => if isDigit c then some exp else none

end NumState

/-- What the scanner is in the middle of: nothing, a string (with the code
units read so far), an escape, a `\u` escape (digits read and their value), a
number (with its text so far), or one of `true`, `false`, `null` (with the
characters still to come). -/
inductive JsonLex where
  | idle
  | str (units : List Nat)
  | esc (units : List Nat)
  | hex (units : List Nat) (count value : Nat)
  | num (st : NumState) (text : List Char)
  | lit (rest : List Char) (value : JSValue)

/-- What may come next between tokens. -/
inductive Expect where
  | value
  | valueOrEnd
  | keyOrEnd
  | key
  | colon
  | commaOrEnd
  | done
deriving DecidableEq, Repr

/-- An array or object that is still open, with what it holds so far; for an
object also the member name read last. -/
inductive Frame where
  | array (items : List JSValue)
  | object (members : List (List Nat × JSValue)) (key : List Nat)

/-- The state of the reader of a JSON text. -/
structure JsonReader where
  stack : List Frame
  expect : Expect
  lex : JsonLex
  result : Option JSValue

namespace JsonReader

/-- A value is complete: it is the result, or it goes into the innermost open
array or object. -/
def finishValue (v : JSValue) (p : JsonReader) : JsonReader :=
  match p.stack with
  | [] => { stack := [], expect := .done, lex := .idle, result := some v }
  | .array items :: outer =>
    { p with stack := .array (items ++ [v]) :: outer, expect := .commaOrEnd, lex := .idle }
  | .object members key :: outer =>
    { p with stack := .object (members ++ [(key, v)]) key :: outer, expect := .commaOrEnd,
             lex := .idle }

/-- A string is complete: a member name where one is expected, else a value. -/
def finishString (units : List Nat) (p : JsonReader) : Except JSError JsonReader :=
  match p.expect, p.stack with
  | .value, _ => .ok (finishValue (.string units) p)
  | .valueOrEnd, _ => .ok (finishValue (.string units) p)
  | .keyOrEnd, .object members _ :: outer =>
    .ok { p with stack := .object members units :: outer, expect := .colon, lex := .idle }
  | .key, .object members _ :: outer =>
    .ok { p with stack := .object members units :: outer, expect := .colon, lex := .idle }
  | _, _ => .error .syntaxError

/-- A value may start here. -/
def valueExpected (p : JsonReader) : Bool :=
  p.expect == .value || p.expect == .valueOrEnd

/-- One character between tokens. -/
def idleStep (p : JsonReader) (c : Char) : Except JSError JsonReader :=
  if isJsonWhiteSpace c then .ok p
  else if c = dquote then
    if valueExpected p || p.expect == .keyOrEnd || p.expect == .key then
      .ok { p with lex := .str [] }
    else .error .syntaxError
  else if c = openBracket then
    if valueExpected p then
      .ok { p with stack := .array [] :: p.stack, expect := .valueOrEnd }
    else .error .syntaxError
  else if c = openBrace then
    if valueExpected p then
      .ok { p with stack := .object [] [] :: p.stack, expect := .keyOrEnd }
    else .error .syntaxError
  else if c = closeBracket then
    match p.stack with
    | .array items :: outer =>
      if p.expect == .valueOrEnd || p.expect == .commaOrEnd then
        .ok (finishValue (.array items) { p with stack := outer })
      else .error .syntaxError
    | _ => .error .syntaxError
  else if c = closeBrace then
    match p.stack with
    | .object members _ :: outer =>
      if p.expect == .keyOrEnd || p.expect == .commaOrEnd then
        .ok (finishValue (.object members) { p with stack := outer })
      else .error .syntaxError
    | _ => .error .syntaxError
  else if c = ',' then
    match p.stack with
    | .array _ :: _ =>
      if p.expect == .commaOrEnd then .ok { p with expect := .value } else .error .syntaxError
    | .object _ _ :: _ =>
      if p.expect == .commaOrEnd then .ok { p with expect := .key } else .error .syntaxError
    | [] => .error .syntaxError
  else if c = ':' then
    if p.expect == .colon then .ok { p with expect := .value } else .error .syntaxError
  else if c = 't' then
    if valueExpected p then .ok { p with lex := .lit "rue".data (.bool true) }
    else .error .syntaxError
  else if c = 'f' then
    if valueExpected p then .ok { p with lex := .lit "alse".data (.bool false) }
    else .error .syntaxError
  else if c = 'n' then
    if valueExpected p then .ok { p with lex := .lit "ull".data .null }
    else .error .syntaxError
  else if c = '-' then
    if valueExpected p then .ok { p with lex := .num .minus [c] } else .error .syntaxError
  else if c = '0' then
    if valueExpected p then .ok { p with lex := .num .zero [c] } else .error .syntaxError
  else if isDigit c then
    if valueExpected p then .ok { p with lex := .num .int [c] } else .error .syntaxError
  else .error .syntaxError

/-- The code unit an escape letter stands for. -/
def escapeUnit (c : Char) : Option Nat :=
  if c = dquote then some 0x22
  else if c = bslash then some 0x5C
  else if c = '/' then some 0x2F
  else if c = 'b' then some 0x08
  else if c = 'f' then some 0x0C
  else if c = 'n' then some 0x0A
  else if c = 'r' then some 0x0D
  else if c = 't' then some 0x09
  else none

/-- One character of the text. -/
def stepChar (p : JsonReader) (c : Char) : Except JSError JsonReader :=
  match p.lex with
  | .idle => idleStep p c
  | .str units =>
    if c = dquote then finishString units p
    else if c = bslash then .ok { p with lex := .esc units }
    else if c.toNat < 0x20 then .error .syntaxError
    else .ok { p with lex := .str (units ++ utf16 c) }
  | .esc units =>
    if c = 'u' then .ok { p with lex := .hex units 0 0 }
    else
      match escapeUnit c with
      | some u => .ok { p with lex := .str (units ++ [u]) }
      | none => .error .syntaxError
  | .hex units count value =>
    match digitValue 16 c with
    | some d =>
      if count = 3 then .ok { p with lex := .str (units ++ [value * 16 + d]) }
      else .ok { p with lex := .hex units (count + 1) (value * 16 + d) }
    | none => .error .syntaxError
  | .num st text =>
    match st.next c with
    | some st1 => .ok { p with lex := .num st1 (text ++ [c]) }
    | none =>
      if st.accepting then idleStep (finishValue (.number text) p) c
      else .error .syntaxError
  | .lit rest value =>
    match rest with
    | [] => .error .syntaxError
    | r :: rs =>
      if c = r then
        if rs.isEmpty then .ok (finishValue value p) else .ok { p with lex := .lit rs value }
      else .error .syntaxError

/-- All the characters of the text, first to last. -/
def readAll : JsonReader → List Char → Except JSError JsonReader
  | p, [] => .ok p
  | p, c :: cs =>
    match stepChar p c with
    | .ok p1 => readAll p1 cs
    | .error e => .error e

/-- The end of the text: a number may end here, anything else unfinished is an
error, and exactly one value must have been read. -/
def finish (p : JsonReader) : Except JSError JSValue :=
  let p1 : Except JSError JsonReader :=
    match p.lex with
    | .idle => .ok p
    | .num st text =>
      if st.accepting then .ok (finishValue (.number text) p) else .error .syntaxError
    | _ => .error .syntaxError
  match p1 with
  | .error e => .error e
  | .ok q =>
    match q.expect, q.result with
    | .done, some v => .ok v
    | _, _ => .error .syntaxError

end JsonReader

/-- The call `JSON.parse(text)`: the value read, or a `SyntaxError`. -/
def JSON.parse (text : String) : Except JSError JSValue :=
  match JsonReader.readAll
      { stack := [], expect := .value, lex := .idle, result := none } text.data with
  | .ok p => JsonReader.finish p
  | .error e => .error e

/-- The value of a string. -/
def stringValue (s : String) : JSValue :=
  .string (codeUnits s)

/-- The value of a reminder object. -/
def reminderValue (r : Reminder) : JSValue :=
  .object
    [ (codeUnits "id", stringValue r.id),
      (codeUnits "text", stringValue r.text),
      (codeUnits "category", stringValue r.category),
      (codeUnits "priority", stringValue r.priority),
      (codeUnits "active", .bool r.active),
      (codeUnits "notificationsEnabled", .bool r.notificationsEnabled),
      (codeUnits "createdAt", stringValue r.createdAt),
      (codeUnits "completed", .bool r.completed) ]

/-- The value of a reminder collection. -/
def remindersValue (rs : List Reminder) : JSValue :=
  .array (rs.map reminderValue)

/-- The value of a settings object. -/
def settingsValue (s : NotificationSettings) : JSValue :=
  .object
    [ (codeUnits "enabled", .bool s.enabled),
      (codeUnits "interval", stringValue s.interval),
      (codeUnits "quietStart", stringValue s.quietStart),
      (codeUnits "quietEnd", stringValue s.quietEnd) ]

/-- The object literal `loadNotificationSettings` falls back to. -/
def defaultSettings : NotificationSettings :=
  { enabled := false, interval := "15", quietStart := "22:00", quietEnd := "07:00" }

/-- Method `loadReminders()`, on the content of local storage.  A stored string
is truthy when it is not empty. -/
def loadReminders (localStorage : List (String × String)) : Except JSError JSValue :=
  match getItem "dadapp-reminders" localStorage with
  | some stored => if stored != "" then JSON.parse stored else .ok (remindersValue [])
  | none => .ok (remindersValue [])

/-- Method `loadNotificationSettings()`, on the content of local storage. -/
def loadNotificationSettings (localStorage : List (String × String)) :
    Except JSError JSValue :=
  match getItem "dadapp-notification-settings" localStorage with
  | some stored => if stored != "" then JSON.parse stored else .ok (settingsValue defaultSettings)
  | none => .ok (settingsValue defaultSettings)

/-! ## Platform calls -/

namespace DadApp

/-- The call `setInterval(callback, delay)`: the platform hands out the next
handle, a positive integer, and the timer is live until cleared. -/
def setInterval (delay : JSNum) (app : DadApp) : Nat × DadApp :=
  (app.timersCreated + 1,
   { app with timersCreated := app.timersCreated + 1,
              intervals := app.intervals ++ [(app.timersCreated + 1, delay)] })

/-- The call `clearInterval(handle)`. -/
def clearInterval (handle : Nat) (app : DadApp) : DadApp :=
  { app with intervals := app.intervals.filter (fun t => t.1 != handle) }

/-- The call `setTimeout(() => this.showBrowserNotification(reminder), delay)`. -/
def setTimeout (reminder : Reminder) (delay : Nat) (app : DadApp) : DadApp :=
  { app with timersCreated := app.timersCreated + 1,
             timeouts := app.timeouts ++ [(app.timersCreated + 1, delay, reminder)] }

/-- The title string of `showBrowserNotification`, as it stands in `script.js`. -/
def notificationTitle : String :=
  String.mk [Char.ofNat 0x11F, Char.ofNat 0x178, Char.ofNat 0xA7, Char.ofNat 0xA0] ++
    " DadApp Reminder"

/-- The notification `showBrowserNotification` constructs for a reminder. -/
def notificationFor (reminder : Reminder) : BrowserNotification :=
  { title := notificationTitle,
    body := reminder.text,
    tag := "reminder-" ++ reminder.id,
    requireInteraction := true }

/-! ## Methods of the class -/

/-- Method `saveReminders()`. -/
def saveReminders (app : DadApp) : DadApp :=
  { app with localStorage := setItem "dadapp-reminders" (jsonReminders app.reminders) app.localStorage }

/-- Method `saveNotificationSettings()`. -/
def saveNotificationSettings (app : DadApp) : DadApp :=
  { app with localStorage :=
      setItem "dadapp-notification-settings" (jsonSettings app.notificationSettings) app.localStorage }

/-- Method `showBrowserNotification(reminder)`. -/
def showBrowserNotification (reminder : Reminder) (app : DadApp) : DadApp :=
  if app.notificationInWindow && app.permission == Permission.granted then
    { app with shown := app.shown ++ [notificationFor reminder] }
  else
    app

/-- Method `scheduleNotification(reminder)`. -/
def scheduleNotification (reminder : Reminder) (app : DadApp) : DadApp :=
  if reminder.notificationsEnabled && app.notificationSettings.enabled then
    setTimeout reminder 1000 app
  else
    app

/-- Method `cancelNotification(id)`: its body is two comments. -/
def cancelNotification (_id : String) (app : DadApp) : DadApp :=
  app

/-- Method `addReminder(reminder)`. -/
def addReminder (reminder : Reminder) (app : DadApp) : DadApp :=
  scheduleNotification reminder (saveReminders { app with reminders := reminder :: app.reminders })

/-- The two assignments of `toggleReminder`, in order. -/
def flipCompleted (r : Reminder) : Reminder :=
  let r1 := { r with completed := !r.completed }
  { r1 with active := !r1.completed }

/-- Applies `f` to the first element that satisfies `p`: an in-place change of
the object `Array.prototype.find` returns. -/
def modifyFound (p : Reminder → Bool) (f : Reminder → Reminder) : List Reminder → List Reminder
  | [] => []
  | r :: rs => if p r then f r :: rs else r :: modifyFound p f rs

/-- Method `toggleReminder(id)`. -/
def toggleReminder (id : String) (app : DadApp) : DadApp :=
  match app.reminders.find? (fun r => r.id == id) with
  | some reminder =>
    let app1 := saveReminders
      { app with reminders := modifyFound (fun r => r.id == id) flipCompleted app.reminders }
    if (flipCompleted reminder).completed then cancelNotification id app1 else app1
  | none => app

/-- Method `deleteReminder(id)`; `confirmed` is the answer of the `confirm` dialog. -/
def deleteReminder (id : String) (confirmed : Bool) (app : DadApp) : DadApp :=
  if confirmed then
    cancelNotification id
      (saveReminders { app with reminders := app.reminders.filter (fun r => r.id != id) })
  else
    app

/-- Method `handleQuickAdd(e)`: `inputValue` is the value of the input field,
`nowMs` is `Date.now()` and `nowIso` is `new Date().toISOString()`. -/
def handleQuickAdd (inputValue : String) (nowMs : Nat) (nowIso : String) (app : DadApp) : DadApp :=
  let text := String.mk (jsTrim inputValue.data)
  if text != "" then
    addReminder
      { id := toString nowMs,
        text := text,
        category := "general",
        priority := "medium",
        active := true,
        notificationsEnabled := true,
        createdAt := nowIso,
        completed := false } app
  else
    app

/-- Method `handleAddReminder(e)`: the four form values, then the clock as in
`handleQuickAdd`. -/
def handleAddReminder (textValue category priority : String) (notificationsEnabled : Bool)
    (nowMs : Nat) (nowIso : String) (app : DadApp) : DadApp :=
  let text := String.mk (jsTrim textValue.data)
  if text != "" then
    addReminder
      { id := toString nowMs,
        text := text,
        category := category,
        priority := priority,
        active := true,
        notificationsEnabled := notificationsEnabled,
        createdAt := nowIso,
        completed := false } app
  else
    app

/-- The first statement of `setupNotificationSystem()`:
`if (this.notificationInterval) clearInterval(this.notificationInterval)`.
A handle is truthy when it is not 0; the field keeps its value. -/
def clearExistingInterval (app : DadApp) : DadApp :=
  match app.notificationInterval with
  | some handle => if handle != 0 then clearInterval handle app else app
  | none => app

/-- Method `setupNotificationSystem()`. -/
def setupNotificationSystem (app : DadApp) : DadApp :=
  let app1 := clearExistingInterval app
  if app1.notificationSettings.enabled && app1.notificationInWindow then
    let intervalMinutes := parseInt app1.notificationSettings.interval
    let intervalMs := JSNum.mul (JSNum.mul intervalMinutes (JSNum.int 60)) (JSNum.int 1000)
    let started := setInterval intervalMs app1
    { started.2 with notificationInterval := some started.1 }
  else
    app1

/-- Method `sendReminderNotifications()`; `currentHour` is `new Date().getHours()`. -/
def sendReminderNotifications (currentHour : Int) (app : DadApp) : DadApp :=
  if !app.notificationSettings.enabled then app
  else
    let quietStart := parseInt (splitColonFirst app.notificationSettings.quietStart)
    let quietEnd := parseInt (splitColonFirst app.notificationSettings.quietEnd)
    if isInQuietHours (JSNum.int currentHour) quietStart quietEnd then app
    else
      let activeReminders :=
        app.reminders.filter (fun r => r.active && r.notificationsEnabled && !r.completed)
      if activeReminders.length > 0 then
        activeReminders.foldl (fun a reminder => showBrowserNotification reminder a) app
      else
        app

/-- Method `updateNotificationSettings()`, with the three values read from the form. -/
def updateNotificationSettings (interval quietStart quietEnd : String) (app : DadApp) : DadApp :=
  setupNotificationSystem
    (saveNotificationSettings
      { app with notificationSettings :=
          { app.notificationSettings with
              interval := interval, quietStart := quietStart, quietEnd := quietEnd } })

/-- Method `requestNotificationPermission()`; `answer` is what
`Notification.requestPermission()` resolves to. -/
def requestNotificationPermission (answer : Permission) (app : DadApp) : DadApp :=
  if app.notificationInWindow then
    let app1 := { app with permission := answer }
    if answer == Permission.granted then
      setupNotificationSystem
        (saveNotificationSettings
          { app1 with notificationSettings := { app1.notificationSettings with enabled := true } })
    else
      app1
  else
    app

/-- The `data` of a message the service worker posts to the page, by its
`type`: the two kinds `sw.js` sends, and any other. -/
inductive ServiceWorkerMessage where
  | markReminderDone (reminderId : String)
  | snoozeReminder (reminderId : String) (snoozeMinutes : Nat)
  | other (type : String)
deriving DecidableEq, Repr

/-- Method `handleServiceWorkerMessage(data)`.  The snooze case only shows a
banner on the page. -/
def handleServiceWorkerMessage (data : ServiceWorkerMessage) (app : DadApp) : DadApp :=
  match data with
  | .markReminderDone reminderId => toggleReminder reminderId app
  | .snoozeReminder _ _ => app
  | .other _ => app

/-- Removes `pattern` from the front of `s`, when `s` starts with it. -/
def stripFront : List Char → List Char → Option (List Char)
  | [], s => some s
  | _ :: _, [] => none
  | p :: ps, c :: cs => if p = c then stripFront ps cs else none

/-- The method `String.prototype.replace(pattern, replacement)` with a string
pattern and a replacement without `$`: the first occurrence is replaced. -/
def replaceFirst (pattern replacement : List Char) : List Char → List Char
  | [] =>
    match stripFront pattern [] with
    | some rest => replacement ++ rest
    | none => []
  | c :: cs =>
    match stripFront pattern (c :: cs) with
    | some rest => replacement ++ rest
    | none => c :: replaceFirst pattern replacement cs

/-- The second `notificationclick` listener of `sw.js`: the message it posts to
the page for the action chosen on a notification with the given tag, if any. -/
def notificationclick (action tag : String) : Option ServiceWorkerMessage :=
  if action == "mark-done" then
    some (.markReminderDone (String.mk (replaceFirst "reminder-".data [] tag.data)))
  else if action == "snooze" then
    some (.snoozeReminder (String.mk (replaceFirst "reminder-".data [] tag.data)) 10)
  else
    none

/-- The stored copy of the collection is up to date: the entry
`dadapp-reminders` holds `JSON.stringify(this.reminders)`. -/
def RemindersStored (app : DadApp) : Prop :=
  getItem "dadapp-reminders" app.localStorage = some (jsonReminders app.reminders)

/-- The state after the constructor and `init()`, given what was loaded from
storage and the platform the page runs on. -/
def construct (reminders : List Reminder) (settings : NotificationSettings)
    (notificationInWindow : Bool) (permission : Permission)
    (localStorage : List (String × String)) : DadApp :=
  setupNotificationSystem
    { reminders := reminders,
      notificationInterval := none,
      notificationSettings := settings,
      notificationInWindow := notificationInWindow,
      permission := permission,
      localStorage := localStorage,
      timersCreated := 0,
      intervals := [],
      timeouts := [],
      shown := [] }

/-! ## The step relation: one task of the page's event loop -/

/-- The tasks that can run, each to completion, with the values they read from
the page, the clock or the user. -/
inductive Event where
  | quickAdd (inputValue : String) (nowMs : Nat) (nowIso : String)
  | formAdd (textValue category priority : String) (notificationsEnabled : Bool)
      (nowMs : Nat) (nowIso : String)
  | toggle (id : String)
  | delete (id : String) (confirmed : Bool)
  | intervalFires (handle : Nat) (currentHour : Int)
  | timeoutFires (handle : Nat)
  | settingsChange (settings : NotificationSettings)
  | setup
  | updateSettings (interval quietStart quietEnd : String)
  | permissionAnswer (answer : Permission)
  | message (data : ServiceWorkerMessage)
deriving DecidableEq, Repr

/-- Runs one task.  A timer task runs only when that timer is live; a timeout
is removed when it fires. -/
def step (e : Event) (app : DadApp) : DadApp :=
  match e with
  | .quickAdd inputValue nowMs nowIso => handleQuickAdd inputValue nowMs nowIso app
  | .formAdd textValue category priority notificationsEnabled nowMs nowIso =>
    handleAddReminder textValue category priority notificationsEnabled nowMs nowIso app
  | .toggle id => toggleReminder id app
  | .delete id confirmed => deleteReminder id confirmed app
  | .intervalFires handle currentHour =>
    if app.intervals.any (fun t => t.1 == handle) then sendReminderNotifications currentHour app
    else app
  | .timeoutFires handle =>
    match app.timeouts.find? (fun t => t.1 == handle) with
    | some t =>
      showBrowserNotification t.2.2
        { app with timeouts := app.timeouts.filter (fun u => u.1 != handle) }
    | none => app
  | .settingsChange settings => { app with notificationSettings := settings }
  | .setup => setupNotificationSystem app
  | .updateSettings interval quietStart quietEnd =>
    updateNotificationSettings interval quietStart quietEnd app
  | .permissionAnswer answer => requestNotificationPermission answer app
  | .message data => handleServiceWorkerMessage data app

/-- Runs a sequence of tasks, first to last. -/
def run (es : List Event) (app : DadApp) : DadApp :=
  es.foldl (fun a e => step e a) app

/-- The invariant of the data model: `active == !completed` for every reminder. -/
def ActiveIffNotCompleted (reminders : List Reminder) : Prop :=
  ∀ r ∈ reminders, r.active = !r.completed

/-- The settings of the scenario: enabled, every 15 minutes, quiet from 22 to 7. -/
def scenarioSettings : NotificationSettings :=
  { enabled := true, interval := "15", quietStart := "22:00", quietEnd := "07:00" }

/-- A reminder as `handleQuickAdd` builds it. -/
def scenarioReminder : Reminder :=
  { id := "1700000000000",
    text := "Buy milk",
    category := "general",
    priority := "medium",
    active := true,
    notificationsEnabled := true,
    createdAt := "2023-11-14T22:13:20.000Z",
    completed := false }

/-- A running page with notifications granted, the scenario settings and the
given collection. -/
def scenarioApp (reminders : List Reminder) : DadApp :=
  construct reminders scenarioSettings true Permission.granted []

/-- A page on which notifications were never enabled: no timer is live. -/
def idleApp : DadApp :=
  construct [] { scenarioSettings with enabled := false } true Permission.default []

/-- The fields of a reminder other than `completed` and `active` agree. -/
def SameExceptCompletion (a b : Reminder) : Prop :=
  b.id = a.id ∧ b.text = a.text ∧ b.category = a.category ∧ b.priority = a.priority ∧
    b.notificationsEnabled = a.notificationsEnabled ∧ b.createdAt = a.createdAt

/-- The scheduler owns every live interval timer: none is live, or exactly one
is and its handle, not 0, is the one in `notificationInterval`. -/
def OneTimer (app : DadApp) : Prop :=
  app.intervals = [] ∨
    ∃ handle delay, handle ≠ 0 ∧ app.intervals = [(handle, delay)] ∧
      app.notificationInterval = some handle

end DadApp


/-! ## Quiet hours: the evaluator on integer hours -/

/-- C1: on integer hours, `isInQuietHours` is true exactly when the window does
not wrap and `quietStart <= currentHour < quietEnd`, or the window wraps and
`currentHour >= quietStart` or `currentHour < quietEnd`; start inclusive, end
exclusive; a zero-width window is never quiet; the six listed samples hold. -/
theorem isInQuietHours_spec :
    (∀ currentHour quietStart quietEnd : Int,
      (isInQuietHours (.int currentHour) (.int quietStart) (.int quietEnd) = true ↔
        (quietStart ≤ quietEnd ∧ quietStart ≤ currentHour ∧ currentHour < quietEnd) ∨
        (quietStart > quietEnd ∧ (currentHour ≥ quietStart ∨ currentHour < quietEnd)))) ∧
    (∀ currentHour q : Int, isInQuietHours (.int currentHour) (.int q) (.int q) = false) ∧
    isInQuietHours (.int 23) (.int 22) (.int 7) = true ∧
    isInQuietHours (.int 6) (.int 22) (.int 7) = true ∧
    isInQuietHours (.int 12) (.int 9) (.int 17) = true ∧
    isInQuietHours (.int 10) (.int 22) (.int 7) = false ∧
    isInQuietHours (.int 17) (.int 9) (.int 17) = false ∧
    isInQuietHours (.int 9) (.int 9) (.int 9) = false := by
  refine ⟨?_, ?_, by decide, by decide, by decide, by decide, by decide, by decide⟩
  · intro c s e
    by_cases h : s ≤ e
    · simp [isInQuietHours, JSNum.le, JSNum.ge, JSNum.lt, h]
    · simp [isInQuietHours, JSNum.le, JSNum.ge, JSNum.lt, h]
      omega
  · intro c q
    simp [isInQuietHours, JSNum.le, JSNum.ge, JSNum.lt]

/-! ## The recurring tick -/

namespace DadApp

/-- With the capability present and permission granted, showing a list of
reminders one after the other appends their notifications in order. -/
theorem foldl_showBrowserNotification (rs : List Reminder) (app : DadApp)
    (hsupported : app.notificationInWindow = true)
    (hgranted : app.permission = Permission.granted) :
    rs.foldl (fun a reminder => showBrowserNotification reminder a) app =
      { app with shown := app.shown ++ rs.map notificationFor } := by
  induction rs generalizing app with
  | nil => simp
  | cons r rs ih =>
    have hstep : showBrowserNotification r app =
        { app with shown := app.shown ++ [notificationFor r] } := by
      simp [showBrowserNotification, hsupported, hgranted]
    rw [List.foldl_cons, hstep, ih _ (by simpa using hsupported) (by simpa using hgranted)]
    simp

/-- C2: with the master switch on and permission granted, one tick leaves the
state as it is when the current hour is in the quiet window given by the hour
parts of `quietStart` and `quietEnd`; otherwise it shows, after what was shown
before, exactly one notification for each reminder with `active`,
`notificationsEnabled` and not `completed`, in collection order, and changes
nothing else. -/
theorem sendReminderNotifications_dispatch (app : DadApp) (currentHour : Int)
    (henabled : app.notificationSettings.enabled = true)
    (hsupported : app.notificationInWindow = true)
    (hgranted : app.permission = Permission.granted) :
    (isInQuietHours (JSNum.int currentHour)
        (parseInt (splitColonFirst app.notificationSettings.quietStart))
        (parseInt (splitColonFirst app.notificationSettings.quietEnd)) = true →
      sendReminderNotifications currentHour app = app) ∧
    (isInQuietHours (JSNum.int currentHour)
        (parseInt (splitColonFirst app.notificationSettings.quietStart))
        (parseInt (splitColonFirst app.notificationSettings.quietEnd)) = false →
      sendReminderNotifications currentHour app =
        { app with
          shown := app.shown ++ List.map notificationFor
            (app.reminders.filter
              (fun r => r.active && r.notificationsEnabled && !r.completed)) }) := by
  constructor
  · intro hq
    simp [sendReminderNotifications, henabled, hq]
  · intro hq
    simp only [sendReminderNotifications, henabled, hq, Bool.not_true, Bool.false_eq_true,
      if_false]
    split
    · exact foldl_showBrowserNotification _ app hsupported hgranted
    · next hlen =>
      have hnil : app.reminders.filter
          (fun r => r.active && r.notificationsEnabled && !r.completed) = [] := by
        apply List.eq_nil_of_length_eq_zero
        omega
      rw [hnil]
      simp

/-- The scenario of C2: quiet from 22 to 7 and one matching reminder; the tick
at hour 23 shows nothing and the tick at hour 12 shows that reminder once. -/
theorem sendReminderNotifications_dispatch_witness :
    (scenarioApp [scenarioReminder]).notificationSettings.enabled = true ∧
    (scenarioApp [scenarioReminder]).notificationInWindow = true ∧
    (scenarioApp [scenarioReminder]).permission = Permission.granted ∧
    (sendReminderNotifications 23 (scenarioApp [scenarioReminder])).shown = [] ∧
    (sendReminderNotifications 12 (scenarioApp [scenarioReminder])).shown =
      [notificationFor scenarioReminder] := by
  refine ⟨by decide, by decide, by decide, ?_, ?_⟩
  · rw [(sendReminderNotifications_dispatch (scenarioApp [scenarioReminder]) 23
      (by decide) (by decide) (by decide)).1 (by decide)]
    decide
  · rw [(sendReminderNotifications_dispatch (scenarioApp [scenarioReminder]) 12
      (by decide) (by decide) (by decide)).2 (by decide)]
    decide

/-! ## The deferred dispatch of a new reminder -/

/-- C3: the deferred dispatch is not held back by a delete or a completion.
A reminder is added, then deleted (first run) or completed (second run) before
its one-second timeout fires: the notification for it is shown all the same,
while the collection no longer holds the id, or holds it completed.  A
recurring tick in the same two situations shows nothing. -/
theorem deferred_dispatch_after_delete_or_completion :
    (run [.quickAdd "Buy milk" 1700000000000 "2023-11-14T22:13:20.000Z",
          .delete "1700000000000" true,
          .timeoutFires 2] (scenarioApp [])).reminders = [] ∧
    (run [.quickAdd "Buy milk" 1700000000000 "2023-11-14T22:13:20.000Z",
          .delete "1700000000000" true,
          .timeoutFires 2] (scenarioApp [])).shown = [notificationFor scenarioReminder] ∧
    (run [.quickAdd "Buy milk" 1700000000000 "2023-11-14T22:13:20.000Z",
          .toggle "1700000000000",
          .timeoutFires 2] (scenarioApp [])).reminders =
      [{ scenarioReminder with completed := true, active := false }] ∧
    (run [.quickAdd "Buy milk" 1700000000000 "2023-11-14T22:13:20.000Z",
          .toggle "1700000000000",
          .timeoutFires 2] (scenarioApp [])).shown = [notificationFor scenarioReminder] ∧
    (run [.quickAdd "Buy milk" 1700000000000 "2023-11-14T22:13:20.000Z",
          .delete "1700000000000" true,
          .intervalFires 1 12] (scenarioApp [])).shown = [] ∧
    (run [.quickAdd "Buy milk" 1700000000000 "2023-11-14T22:13:20.000Z",
          .toggle "1700000000000",
          .intervalFires 1 12] (scenarioApp [])).shown = [] := by
  refine ⟨by decide, by decide, by decide, by decide, by decide, by decide⟩

/-- C4: `addReminder` appends exactly one pending timeout, of 1000 ms and for
the reminder itself, when the reminder has notifications enabled and the master
switch is on, and none when either is off; the live interval timers and the
stored interval handle are as before. -/
theorem addReminder_schedules (reminder : Reminder) (app : DadApp) :
    (reminder.notificationsEnabled = true ∧ app.notificationSettings.enabled = true →
      (addReminder reminder app).timeouts =
        app.timeouts ++ [(app.timersCreated + 1, 1000, reminder)]) ∧
    (reminder.notificationsEnabled = false ∨ app.notificationSettings.enabled = false →
      (addReminder reminder app).timeouts = app.timeouts) ∧
    (addReminder reminder app).intervals = app.intervals ∧
    (addReminder reminder app).notificationInterval = app.notificationInterval := by
  refine ⟨?_, ?_, ?_, ?_⟩
  · rintro ⟨h1, h2⟩
    simp [addReminder, scheduleNotification, saveReminders, setTimeout, h1, h2]
  · intro h
    rcases h with h | h <;>
      simp [addReminder, scheduleNotification, saveReminders, setTimeout, h]
  · simp only [addReminder, scheduleNotification, saveReminders, setTimeout]
    split <;> rfl
  · simp only [addReminder, scheduleNotification, saveReminders, setTimeout]
    split <;> rfl

/-- An instance of C4: with the master switch on, a reminder with notifications
enabled gets one timeout; with notifications disabled it gets none. -/
theorem addReminder_schedules_witness :
    (addReminder scenarioReminder (scenarioApp [])).timeouts = [(2, 1000, scenarioReminder)] ∧
    (addReminder { scenarioReminder with notificationsEnabled := false }
      (scenarioApp [])).timeouts = [] :=
  ⟨(addReminder_schedules scenarioReminder (scenarioApp [])).1 ⟨by decide, by decide⟩,
   (addReminder_schedules { scenarioReminder with notificationsEnabled := false }
      (scenarioApp [])).2.1 (Or.inl (by decide))⟩

end DadApp

/-! ## The reminder store -/

namespace DadApp

/-- The second assignment of `toggleReminder` makes the record satisfy the
invariant, whatever it was before. -/
theorem flipCompleted_active (r : Reminder) :
    (flipCompleted r).active = !(flipCompleted r).completed := by
  simp [flipCompleted]

/-- Toggling keeps the id. -/
theorem flipCompleted_id (r : Reminder) : (flipCompleted r).id = r.id := by
  simp [flipCompleted]

/-- On a record that satisfies the invariant, two flips give the record back. -/
theorem flipCompleted_twice (r : Reminder) (h : r.active = !r.completed) :
    flipCompleted (flipCompleted r) = r := by
  cases r with
  | mk id text category priority active notificationsEnabled createdAt completed =>
    simp only [flipCompleted] at *
    simp only [Bool.not_not]
    subst h
    rfl

/-- Nothing is found: nothing is modified. -/
theorem modifyFound_of_find_none (p : Reminder → Bool) (f : Reminder → Reminder)
    (l : List Reminder) (h : l.find? p = none) : modifyFound p f l = l := by
  induction l with
  | nil => rfl
  | cons r rs ih =>
    by_cases hp : p r = true
    · simp [List.find?, hp] at h
    · simp only [Bool.not_eq_true] at hp
      simp only [List.find?, hp] at h
      simp [modifyFound, hp, ih h]

/-- The found record is replaced by its image, in place. -/
theorem modifyFound_append (p : Reminder → Bool) (f : Reminder → Reminder)
    (pre post : List Reminder) (r : Reminder)
    (hpre : ∀ x ∈ pre, p x = false) (hr : p r = true) :
    modifyFound p f (pre ++ r :: post) = pre ++ f r :: post := by
  induction pre with
  | nil => simp [modifyFound, hr]
  | cons x xs ih =>
    have hx : p x = false := hpre x (List.mem_cons_self _ _)
    have hxs : ∀ y ∈ xs, p y = false := fun y hy => hpre y (List.mem_cons_of_mem _ hy)
    simp [modifyFound, hx, ih hxs]

/-- Modifying twice, when the first change keeps the record findable, is
modifying once with the composed change. -/
theorem modifyFound_modifyFound (p : Reminder → Bool) (f g : Reminder → Reminder)
    (hg : ∀ r, p r = true → p (g r) = true) (l : List Reminder) :
    modifyFound p f (modifyFound p g l) = modifyFound p (fun r => f (g r)) l := by
  induction l with
  | nil => rfl
  | cons r rs ih =>
    by_cases hp : p r = true
    · simp [modifyFound, hp, hg r hp]
    · simp only [Bool.not_eq_true] at hp
      simp [modifyFound, hp, ih]

/-- A change that fixes the found record fixes the list. -/
theorem modifyFound_eq_self (p : Reminder → Bool) (f : Reminder → Reminder)
    (l : List Reminder) (h : ∀ r, l.find? p = some r → f r = r) : modifyFound p f l = l := by
  induction l with
  | nil => rfl
  | cons r rs ih =>
    by_cases hp : p r = true
    · have hr : f r = r := h r (by simp [List.find?, hp])
      simp [modifyFound, hp, hr]
    · simp only [Bool.not_eq_true] at hp
      have hrs : ∀ x, rs.find? p = some x → f x = x := by
        intro x hx
        exact h x (by simpa [List.find?, hp] using hx)
      simp [modifyFound, hp, ih hrs]

/-- The list keeps its length. -/
theorem modifyFound_length (p : Reminder → Bool) (f : Reminder → Reminder)
    (l : List Reminder) : (modifyFound p f l).length = l.length := by
  induction l with
  | nil => rfl
  | cons r rs ih =>
    by_cases hp : p r = true
    · simp [modifyFound, hp]
    · simp only [Bool.not_eq_true] at hp
      simp [modifyFound, hp, ih]

/-- The collection after `toggleReminder`, in both of its branches. -/
theorem toggleReminder_reminders (id : String) (app : DadApp) :
    (toggleReminder id app).reminders =
      modifyFound (fun r => r.id == id) flipCompleted app.reminders := by
  unfold toggleReminder
  split
  · split <;> rfl
  · next h => rw [modifyFound_of_find_none _ _ _ h]

/-- The collection after `addReminder`. -/
theorem addReminder_reminders (reminder : Reminder) (app : DadApp) :
    (addReminder reminder app).reminders = reminder :: app.reminders := by
  simp only [addReminder, scheduleNotification, saveReminders, setTimeout]
  split <;> rfl

/-- The collection after `deleteReminder`. -/
theorem deleteReminder_reminders (id : String) (confirmed : Bool) (app : DadApp) :
    (deleteReminder id confirmed app).reminders =
      if confirmed then app.reminders.filter (fun r => r.id != id) else app.reminders := by
  unfold deleteReminder
  split <;> rfl

end DadApp

namespace DadApp

/-- When the reminder located by `id`, if there is one, satisfies
`active == !completed`, two calls of `toggleReminder(id)` give back the
collection. -/
theorem toggleReminder_twice_of_found (id : String) (app : DadApp)
    (hinv : ∀ r, app.reminders.find? (fun r => r.id == id) = some r →
      r.active = !r.completed) :
    (toggleReminder id (toggleReminder id app)).reminders = app.reminders := by
  rw [toggleReminder_reminders, toggleReminder_reminders, modifyFound_modifyFound]
  · exact modifyFound_eq_self _ _ _ (fun r hr => flipCompleted_twice r (hinv r hr))
  · intro r hr
    simpa [flipCompleted_id] using hr

/-- Showing a notification does not touch the collection. -/
theorem showBrowserNotification_reminders (reminder : Reminder) (app : DadApp) :
    (showBrowserNotification reminder app).reminders = app.reminders := by
  unfold showBrowserNotification
  split <;> rfl

/-- A tick does not touch the collection. -/
theorem sendReminderNotifications_reminders (currentHour : Int) (app : DadApp) :
    (sendReminderNotifications currentHour app).reminders = app.reminders := by
  have hfold : ∀ (rs : List Reminder) (a : DadApp),
      (rs.foldl (fun a reminder => showBrowserNotification reminder a) a).reminders =
        a.reminders := by
    intro rs
    induction rs with
    | nil => intro a; rfl
    | cons r rs ih =>
      intro a
      rw [List.foldl_cons, ih, showBrowserNotification_reminders]
  unfold sendReminderNotifications
  split
  · rfl
  · dsimp only
    split
    · rfl
    · split
      · exact hfold _ _
      · rfl

/-- Rescheduling does not touch the collection. -/
theorem setupNotificationSystem_reminders (app : DadApp) :
    (setupNotificationSystem app).reminders = app.reminders := by
  unfold setupNotificationSystem clearExistingInterval
  cases app.notificationInterval with
  | none => dsimp only; split <;> rfl
  | some handle =>
    dsimp only
    split <;> split <;> rfl

/-- What one task can do to the collection: nothing, put a fresh active record
in front, flip the record found by an id, or drop the records with an id. -/
theorem step_reminders (e : Event) (app : DadApp) :
    (step e app).reminders = app.reminders ∨
    (∃ r, r.active = true ∧ r.completed = false ∧
      (step e app).reminders = r :: app.reminders) ∨
    (∃ id, (step e app).reminders =
      modifyFound (fun r => r.id == id) flipCompleted app.reminders) ∨
    (∃ id, (step e app).reminders = app.reminders.filter (fun r => r.id != id)) := by
  cases e with
  | quickAdd inputValue nowMs nowIso =>
    simp only [step, handleQuickAdd]
    split
    · exact Or.inr (Or.inl ⟨_, rfl, rfl, addReminder_reminders _ _⟩)
    · exact Or.inl rfl
  | formAdd textValue category priority notificationsEnabled nowMs nowIso =>
    simp only [step, handleAddReminder]
    split
    · exact Or.inr (Or.inl ⟨_, rfl, rfl, addReminder_reminders _ _⟩)
    · exact Or.inl rfl
  | toggle id => exact Or.inr (Or.inr (Or.inl ⟨id, toggleReminder_reminders id app⟩))
  | delete id confirmed =>
    cases confirmed with
    | true => exact Or.inr (Or.inr (Or.inr ⟨id, by simp [step, deleteReminder_reminders]⟩))
    | false => exact Or.inl (by simp [step, deleteReminder_reminders])
  | intervalFires handle currentHour =>
    left
    simp only [step]
    split
    · exact sendReminderNotifications_reminders _ _
    · rfl
  | timeoutFires handle =>
    left
    simp only [step]
    split
    · rw [showBrowserNotification_reminders]
    · rfl
  | settingsChange settings => exact Or.inl rfl
  | setup => exact Or.inl (setupNotificationSystem_reminders app)
  | updateSettings interval quietStart quietEnd =>
    left
    simp only [step, updateNotificationSettings]
    rw [setupNotificationSystem_reminders]
    rfl
  | permissionAnswer answer =>
    left
    simp only [step, requestNotificationPermission]
    split
    · split
      · rw [setupNotificationSystem_reminders]
        rfl
      · rfl
    · rfl
  | message data =>
    cases data with
    | markReminderDone reminderId =>
      exact Or.inr (Or.inr (Or.inl ⟨reminderId, toggleReminder_reminders reminderId app⟩))
    | snoozeReminder reminderId snoozeMinutes => exact Or.inl rfl
    | other type => exact Or.inl rfl

/-- Every task keeps `active == !completed` on every reminder. -/
theorem step_activeIffNotCompleted (e : Event) (app : DadApp)
    (h : ActiveIffNotCompleted app.reminders) :
    ActiveIffNotCompleted (step e app).reminders := by
  rcases step_reminders e app with h1 | ⟨r, hr1, hr2, h2⟩ | ⟨id, h3⟩ | ⟨id, h4⟩
  · rw [h1]; exact h
  · rw [h2]
    intro x hx
    rcases List.mem_cons.mp hx with rfl | hx
    · simp [hr1, hr2]
    · exact h x hx
  · rw [h3]
    clear h3
    generalize app.reminders = l at h
    induction l with
    | nil => intro x hx; simp [modifyFound] at hx
    | cons r rs ih =>
      have hrs : ActiveIffNotCompleted rs := fun y hy => h y (List.mem_cons_of_mem _ hy)
      intro x hx
      by_cases hp : (r.id == id) = true
      · simp only [modifyFound, hp, if_true] at hx
        rcases List.mem_cons.mp hx with rfl | hx
        · exact flipCompleted_active r
        · exact hrs x hx
      · simp only [modifyFound, hp] at hx
        rcases List.mem_cons.mp hx with rfl | hx
        · exact h _ (List.mem_cons_self _ _)
        · exact ih hrs x hx
  · rw [h4]
    intro x hx
    exact h x (List.mem_of_mem_filter hx)

/-- Every sequence of tasks keeps `active == !completed` on every reminder. -/
theorem run_activeIffNotCompleted (es : List Event) (app : DadApp)
    (h : ActiveIffNotCompleted app.reminders) :
    ActiveIffNotCompleted (run es app).reminders := by
  induction es generalizing app with
  | nil => exact h
  | cons e es ih => exact ih (step e app) (step_activeIffNotCompleted e app h)

/-- C5: two calls of `toggleReminder(id)` give back the collection as it was
before the first, record by record and field by field, `completed` and
`active` of the located reminder included: on every collection of the data
model (every reminder has `active == !completed`), and so in every state the
page reaches from the empty collection by any sequence of tasks. -/
theorem toggleReminder_twice (id : String) :
    (∀ app : DadApp, ActiveIffNotCompleted app.reminders →
      (toggleReminder id (toggleReminder id app)).reminders = app.reminders) ∧
    (∀ (app0 : DadApp) (es : List Event), app0.reminders = [] →
      (toggleReminder id (toggleReminder id (run es app0))).reminders =
        (run es app0).reminders) := by
  have hmodel : ∀ app : DadApp, ActiveIffNotCompleted app.reminders →
      (toggleReminder id (toggleReminder id app)).reminders = app.reminders := by
    intro app hinv
    apply toggleReminder_twice_of_found
    intro r hr
    exact hinv r (List.mem_of_find?_eq_some hr)
  refine ⟨hmodel, ?_⟩
  intro app0 es hempty
  apply hmodel
  apply run_activeIffNotCompleted
  rw [hempty]
  intro r hr
  cases hr

/-- An instance of C5: after two adds, one toggle of the first reminder
changes the collection and a second one gives it back. -/
theorem toggleReminder_twice_witness :
    (scenarioApp []).reminders = [] ∧
    (toggleReminder "1700000000000"
      (run [.quickAdd "Buy milk" 1700000000000 "2023-11-14T22:13:20.000Z",
            .formAdd "Call mum" "family" "high" false 1700000000001
              "2023-11-14T22:13:20.001Z"] (scenarioApp []))).reminders ≠
      (run [.quickAdd "Buy milk" 1700000000000 "2023-11-14T22:13:20.000Z",
            .formAdd "Call mum" "family" "high" false 1700000000001
              "2023-11-14T22:13:20.001Z"] (scenarioApp [])).reminders ∧
    (toggleReminder "1700000000000" (toggleReminder "1700000000000"
      (run [.quickAdd "Buy milk" 1700000000000 "2023-11-14T22:13:20.000Z",
            .formAdd "Call mum" "family" "high" false 1700000000001
              "2023-11-14T22:13:20.001Z"] (scenarioApp [])))).reminders =
      (run [.quickAdd "Buy milk" 1700000000000 "2023-11-14T22:13:20.000Z",
            .formAdd "Call mum" "family" "high" false 1700000000001
              "2023-11-14T22:13:20.001Z"] (scenarioApp [])).reminders :=
  ⟨by decide, by decide,
   (toggleReminder_twice "1700000000000").2 (scenarioApp []) _ (by decide)⟩

/-- C6: starting from the empty collection, after any sequence of tasks (adds
through the two handlers, toggles, deletes, and every other task of the page)
every reminder in the collection satisfies `active == !completed`. -/
theorem active_iff_not_completed_reachable (app0 : DadApp) (hempty : app0.reminders = [])
    (es : List Event) : ActiveIffNotCompleted (run es app0).reminders := by
  have hgen : ∀ (es : List Event) (app : DadApp),
      ActiveIffNotCompleted app.reminders → ActiveIffNotCompleted (run es app).reminders := by
    intro es
    induction es with
    | nil => intro app h; exact h
    | cons e es ih =>
      intro app h
      exact ih (step e app) (step_activeIffNotCompleted e app h)
  apply hgen
  rw [hempty]
  intro r hr
  cases hr

/-- An instance of C6: two adds, a toggle of the first and a delete of the
second, from the empty collection. -/
theorem active_iff_not_completed_reachable_witness :
    (scenarioApp []).reminders = [] ∧
    ActiveIffNotCompleted
      (run [.quickAdd "Buy milk" 1700000000000 "2023-11-14T22:13:20.000Z",
            .formAdd "Call mum" "family" "high" false 1700000000001 "2023-11-14T22:13:20.001Z",
            .toggle "1700000000000",
            .delete "1700000000001" true] (scenarioApp [])).reminders :=
  ⟨by decide, active_iff_not_completed_reachable (scenarioApp []) (by decide) _⟩

end DadApp

namespace DadApp

/-- A string built from characters is non-empty exactly when there is a character. -/
theorem mk_bne_empty (l : List Char) (h : l ≠ []) : (String.mk l != "") = true := by
  rw [bne_iff_ne]
  intro hl
  apply h
  have hdata : (String.mk l).data = ("" : String).data := by rw [hl]
  simpa using hdata

/-- C7: when the trimmed text is not empty, after `handleAddReminder` (and
likewise `handleQuickAdd`) the collection is one longer, its first element is
the record the handler built, with `active` true and `completed` false, and
the rest is the old collection in its order; `addReminder` itself puts any
record in front of the old collection. -/
theorem addReminder_inserts_at_head (textValue category priority : String)
    (notificationsEnabled : Bool) (nowMs : Nat) (nowIso : String) (app : DadApp)
    (htext : jsTrim textValue.data ≠ []) :
    ((handleAddReminder textValue category priority notificationsEnabled nowMs nowIso
        app).reminders.length = app.reminders.length + 1 ∧
      (handleAddReminder textValue category priority notificationsEnabled nowMs nowIso
        app).reminders.head? =
          some { id := toString nowMs,
                 text := String.mk (jsTrim textValue.data),
                 category := category,
                 priority := priority,
                 active := true,
                 notificationsEnabled := notificationsEnabled,
                 createdAt := nowIso,
                 completed := false } ∧
      (handleAddReminder textValue category priority notificationsEnabled nowMs nowIso
        app).reminders.tail = app.reminders) ∧
    ((handleQuickAdd textValue nowMs nowIso app).reminders.length = app.reminders.length + 1 ∧
      (handleQuickAdd textValue nowMs nowIso app).reminders.head? =
          some { id := toString nowMs,
                 text := String.mk (jsTrim textValue.data),
                 category := "general",
                 priority := "medium",
                 active := true,
                 notificationsEnabled := true,
                 createdAt := nowIso,
                 completed := false } ∧
      (handleQuickAdd textValue nowMs nowIso app).reminders.tail = app.reminders) ∧
    (∀ reminder : Reminder,
      (addReminder reminder app).reminders.length = app.reminders.length + 1 ∧
      (addReminder reminder app).reminders.head? = some reminder ∧
      (addReminder reminder app).reminders.tail = app.reminders) := by
  have hne := mk_bne_empty _ htext
  refine ⟨?_, ?_, ?_⟩
  · simp only [handleAddReminder, hne, if_true, addReminder_reminders]
    simp
  · simp only [handleQuickAdd, hne, if_true, addReminder_reminders]
    simp
  · intro reminder
    simp [addReminder_reminders]

/-- An instance of C7: the form adds "Call mum" to a collection of one. -/
theorem addReminder_inserts_at_head_witness :
    jsTrim " Call mum ".data ≠ [] ∧
    (handleAddReminder " Call mum " "family" "high" false 1700000000001
      "2023-11-14T22:13:20.001Z" (scenarioApp [scenarioReminder])).reminders.tail =
        [scenarioReminder] :=
  ⟨by decide,
   (addReminder_inserts_at_head " Call mum " "family" "high" false 1700000000001
      "2023-11-14T22:13:20.001Z" (scenarioApp [scenarioReminder]) (by decide)).1.2.2⟩

/-- C8: after a confirmed `deleteReminder(id)` no reminder has the id, what is
left is a sublist of the old collection (same relative order) that holds every
record with another id as often as before; a second delete changes nothing
more, and deleting an id that no reminder has leaves the collection as it is. -/
theorem deleteReminder_removes (id : String) (app : DadApp) :
    (∀ r ∈ (deleteReminder id true app).reminders, r.id ≠ id) ∧
    List.Sublist (deleteReminder id true app).reminders app.reminders ∧
    (∀ r : Reminder, r.id ≠ id →
      (deleteReminder id true app).reminders.count r = app.reminders.count r) ∧
    (deleteReminder id true (deleteReminder id true app)).reminders =
      (deleteReminder id true app).reminders ∧
    ((∀ r ∈ app.reminders, r.id ≠ id) →
      (deleteReminder id true app).reminders = app.reminders) := by
  simp only [deleteReminder_reminders, if_true]
  refine ⟨?_, List.filter_sublist _, ?_, ?_, ?_⟩
  · intro r hr
    have hp := (List.mem_filter.mp hr).2
    simpa using hp
  · intro r hr
    apply List.count_filter
    simpa using hr
  · simp
  · intro h
    apply List.filter_eq_self.mpr
    intro r hr
    simpa using h r hr

/-- An instance of C8: deleting an id that is not in the collection. -/
theorem deleteReminder_removes_witness :
    (∀ r ∈ (scenarioApp [scenarioReminder]).reminders, r.id ≠ "42") ∧
    (deleteReminder "42" true (scenarioApp [scenarioReminder])).reminders =
      (scenarioApp [scenarioReminder]).reminders :=
  ⟨by decide,
   (deleteReminder_removes "42" (scenarioApp [scenarioReminder])).2.2.2.2 (by decide)⟩

end DadApp

namespace DadApp

/-- The two assignments of `toggleReminder` written as one update. -/
theorem flipCompleted_eq (r : Reminder) :
    flipCompleted r = { r with completed := !r.completed, active := r.completed } := by
  simp [flipCompleted]

/-- Toggling touches the collection and its stored copy, nothing else. -/
theorem toggleReminder_eq (id : String) (app : DadApp) :
    toggleReminder id app =
      { app with reminders := (toggleReminder id app).reminders,
                 localStorage := (toggleReminder id app).localStorage } := by
  unfold toggleReminder
  split
  · split <;> rfl
  · rfl

/-- Position by position, the records before and after a change of the found
record agree outside `completed` and `active`. -/
theorem modifyFound_sameExceptCompletion (p : Reminder → Bool) (l : List Reminder) :
    List.Forall₂ SameExceptCompletion l (modifyFound p flipCompleted l) := by
  have hrefl : ∀ r : Reminder, SameExceptCompletion r r :=
    fun r => ⟨rfl, rfl, rfl, rfl, rfl, rfl⟩
  induction l with
  | nil => exact List.Forall₂.nil
  | cons r rs ih =>
    by_cases hp : p r = true
    · simp only [modifyFound, hp, if_true]
      refine List.Forall₂.cons ⟨rfl, rfl, rfl, rfl, rfl, rfl⟩ ?_
      exact List.forall₂_same.mpr (fun x _ => hrefl x)
    · simp only [modifyFound, hp]
      exact List.Forall₂.cons (hrefl r) ih

/-- C9: `toggleReminder(id)` keeps the length of the collection; position by
position the records keep id, text, category, priority, notificationsEnabled
and createdAt; the first record with the id has `completed` flipped and
`active` set to the old `completed`, and the records before and after it are
as they were; when no record has the id the whole state is unchanged; timers,
settings and shown notifications are never touched. -/
theorem toggleReminder_frame (id : String) (app : DadApp) :
    (toggleReminder id app).reminders.length = app.reminders.length ∧
    List.Forall₂ SameExceptCompletion app.reminders (toggleReminder id app).reminders ∧
    (∀ (pre post : List Reminder) (r : Reminder),
      app.reminders = pre ++ r :: post → (∀ x ∈ pre, x.id ≠ id) → r.id = id →
      (toggleReminder id app).reminders =
        pre ++ { r with completed := !r.completed, active := r.completed } :: post) ∧
    ((∀ r ∈ app.reminders, r.id ≠ id) → toggleReminder id app = app) ∧
    (toggleReminder id app).notificationSettings = app.notificationSettings ∧
    (toggleReminder id app).notificationInterval = app.notificationInterval ∧
    (toggleReminder id app).intervals = app.intervals ∧
    (toggleReminder id app).timeouts = app.timeouts ∧
    (toggleReminder id app).shown = app.shown := by
  refine ⟨?_, ?_, ?_, ?_, ?_, ?_, ?_, ?_, ?_⟩
  · rw [toggleReminder_reminders, modifyFound_length]
  · rw [toggleReminder_reminders]
    exact modifyFound_sameExceptCompletion _ _
  · intro pre post r hsplit hpre hr
    rw [toggleReminder_reminders, hsplit, modifyFound_append _ _ pre post r, flipCompleted_eq]
    · intro x hx
      simpa using hpre x hx
    · simpa using hr
  · intro h
    have hnone : app.reminders.find? (fun r => r.id == id) = none := by
      rw [List.find?_eq_none]
      intro r hr
      simpa using h r hr
    unfold toggleReminder
    rw [hnone]
  · rw [toggleReminder_eq]
  · rw [toggleReminder_eq]
  · rw [toggleReminder_eq]
  · rw [toggleReminder_eq]
  · rw [toggleReminder_eq]

/-- An instance of C9: toggling the second of two reminders, and toggling an
id that no reminder has. -/
theorem toggleReminder_frame_witness :
    (toggleReminder "1700000000000"
      (scenarioApp [{ scenarioReminder with id := "7" }, scenarioReminder])).reminders =
        [{ scenarioReminder with id := "7" },
         { scenarioReminder with completed := true, active := false }] ∧
    toggleReminder "42" (scenarioApp [scenarioReminder]) = scenarioApp [scenarioReminder] :=
  ⟨(toggleReminder_frame "1700000000000"
      (scenarioApp [{ scenarioReminder with id := "7" }, scenarioReminder])).2.2.1
      [{ scenarioReminder with id := "7" }] [] scenarioReminder (by decide) (by decide)
      (by decide),
   (toggleReminder_frame "42" (scenarioApp [scenarioReminder])).2.2.2.1 (by decide)⟩

end DadApp

/-! ## The recurring timer -/

namespace DadApp

/-- The delay `intervalMinutes * 60 * 1000` is `intervalMinutes * 60000`. -/
theorem mul_60_1000 (a : JSNum) :
    JSNum.mul (JSNum.mul a (JSNum.int 60)) (JSNum.int 1000) = JSNum.mul a (JSNum.int 60000) := by
  cases a with
  | nan => rfl
  | int i =>
    simp only [JSNum.mul, JSNum.int.injEq]
    ring

/-- When the scheduler owns every live timer, clearing the existing one leaves
no timer at all. -/
theorem clearExistingInterval_eq (app : DadApp) (h : OneTimer app) :
    clearExistingInterval app = { app with intervals := [] } := by
  obtain ⟨reminders, field, settings, inWindow, perm, store, created, live, pending, shown⟩ := app
  rcases h with h | ⟨handle, delay, hne, hlive, hfield⟩
  · simp only at h
    subst h
    cases field with
    | none => rfl
    | some handle =>
      simp only [clearExistingInterval]
      split <;> simp [clearInterval]
  · simp only at hlive hfield
    subst hlive hfield
    simp [clearExistingInterval, clearInterval, hne]

/-- The state after `setupNotificationSystem()` when the scheduler owns every
live timer: the old timer is gone, and a new one is live exactly when the
master switch is on and the platform has notifications. -/
theorem setupNotificationSystem_eq (app : DadApp) (h : OneTimer app) :
    setupNotificationSystem app =
      if app.notificationSettings.enabled && app.notificationInWindow then
        { app with
          timersCreated := app.timersCreated + 1,
          intervals := [(app.timersCreated + 1,
            JSNum.mul (parseInt app.notificationSettings.interval) (JSNum.int 60000))],
          notificationInterval := some (app.timersCreated + 1) }
      else
        { app with intervals := [] } := by
  unfold setupNotificationSystem
  rw [clearExistingInterval_eq app h]
  dsimp only
  split
  · simp [setInterval, mul_60_1000]
  · rfl

/-- Rescheduling keeps the scheduler the owner of every live timer. -/
theorem setupNotificationSystem_oneTimer (app : DadApp) (h : OneTimer app) :
    OneTimer (setupNotificationSystem app) := by
  rw [setupNotificationSystem_eq app h]
  split
  · exact Or.inr ⟨_, _, Nat.succ_ne_zero _, rfl, rfl⟩
  · exact Or.inl rfl

/-- Ownership only depends on the live timers and the stored handle. -/
theorem oneTimer_congr (a b : DadApp) (hlive : b.intervals = a.intervals)
    (hfield : b.notificationInterval = a.notificationInterval) (h : OneTimer a) :
    OneTimer b := by
  unfold OneTimer at *
  rw [hlive, hfield]
  exact h

/-- Adding a reminder touches the collection, its stored copy and the pending
timeouts, nothing else. -/
theorem addReminder_eq (reminder : Reminder) (app : DadApp) :
    addReminder reminder app =
      { app with reminders := (addReminder reminder app).reminders,
                 localStorage := (addReminder reminder app).localStorage,
                 timersCreated := (addReminder reminder app).timersCreated,
                 timeouts := (addReminder reminder app).timeouts } := by
  simp only [addReminder, scheduleNotification, saveReminders, setTimeout]
  split <;> rfl

/-- Deleting touches the collection and its stored copy, nothing else. -/
theorem deleteReminder_eq (id : String) (confirmed : Bool) (app : DadApp) :
    deleteReminder id confirmed app =
      { app with reminders := (deleteReminder id confirmed app).reminders,
                 localStorage := (deleteReminder id confirmed app).localStorage } := by
  unfold deleteReminder
  split <;> rfl

/-- Showing a notification touches the shown notifications, nothing else. -/
theorem showBrowserNotification_eq (reminder : Reminder) (app : DadApp) :
    showBrowserNotification reminder app =
      { app with shown := (showBrowserNotification reminder app).shown } := by
  unfold showBrowserNotification
  split <;> rfl

/-- A tick touches the shown notifications, nothing else. -/
theorem sendReminderNotifications_eq (currentHour : Int) (app : DadApp) :
    ∃ shown, sendReminderNotifications currentHour app = { app with shown := shown } := by
  have hfold : ∀ (rs : List Reminder) (a : DadApp),
      ∃ shown, rs.foldl (fun a reminder => showBrowserNotification reminder a) a =
        { a with shown := shown } := by
    intro rs
    induction rs with
    | nil => intro a; exact ⟨a.shown, rfl⟩
    | cons r rs ih =>
      intro a
      obtain ⟨shown, hshown⟩ := ih (showBrowserNotification r a)
      rw [List.foldl_cons, hshown, showBrowserNotification_eq]
      exact ⟨shown, rfl⟩
  unfold sendReminderNotifications
  split
  · exact ⟨app.shown, rfl⟩
  · dsimp only
    split
    · exact ⟨app.shown, rfl⟩
    · split
      · exact hfold _ _
      · exact ⟨app.shown, rfl⟩

/-- Every task keeps the scheduler the owner of every live timer. -/
theorem step_oneTimer (e : Event) (app : DadApp) (h : OneTimer app) :
    OneTimer (step e app) := by
  cases e with
  | quickAdd inputValue nowMs nowIso =>
    simp only [step, handleQuickAdd]
    split
    · rw [addReminder_eq]; exact h
    · exact h
  | formAdd textValue category priority notificationsEnabled nowMs nowIso =>
    simp only [step, handleAddReminder]
    split
    · rw [addReminder_eq]; exact h
    · exact h
  | toggle id => simp only [step]; rw [toggleReminder_eq]; exact h
  | delete id confirmed => simp only [step]; rw [deleteReminder_eq]; exact h
  | intervalFires handle currentHour =>
    simp only [step]
    split
    · obtain ⟨shown, hshown⟩ := sendReminderNotifications_eq currentHour app
      rw [hshown]
      exact h
    · exact h
  | timeoutFires handle =>
    simp only [step]
    split
    · rw [showBrowserNotification_eq]; exact h
    · exact h
  | settingsChange settings => exact h
  | setup => exact setupNotificationSystem_oneTimer app h
  | updateSettings interval quietStart quietEnd =>
    simp only [step, updateNotificationSettings]
    exact setupNotificationSystem_oneTimer _ (oneTimer_congr app _ rfl rfl h)
  | permissionAnswer answer =>
    simp only [step, requestNotificationPermission]
    split
    · split
      · exact setupNotificationSystem_oneTimer _ (oneTimer_congr app _ rfl rfl h)
      · exact h
    · exact h
  | message data =>
    cases data with
    | markReminderDone reminderId =>
      simp only [step, handleServiceWorkerMessage]
      rw [toggleReminder_eq]
      exact h
    | snoozeReminder reminderId snoozeMinutes => exact h
    | other type => exact h

/-- From a state with no live timer, every sequence of tasks leads to a state
in which the scheduler owns every live timer. -/
theorem run_oneTimer (es : List Event) (app : DadApp) (h : OneTimer app) :
    OneTimer (run es app) := by
  induction es generalizing app with
  | nil => exact h
  | cons e es ih => exact ih (step e app) (step_oneTimer e app h)

end DadApp

namespace DadApp

/-- C10: starting with no live interval timer, after any sequence of tasks
(calls of `setupNotificationSystem` among them, and arbitrary changes of the
settings) at most one interval timer is live.  In every such state a call of
`setupNotificationSystem` leaves none live when the master switch is off or
the platform has no notifications, and exactly one when the switch is on and
notifications are supported, with delay `parseInt(interval) * 60000`; a second
call right after leaves exactly one again, not two. -/
theorem setupNotificationSystem_single_timer (app0 : DadApp) (hnone : app0.intervals = [])
    (es : List Event) :
    (run es app0).intervals.length ≤ 1 ∧
    ((run es app0).notificationSettings.enabled = false →
      (setupNotificationSystem (run es app0)).intervals = []) ∧
    ((run es app0).notificationInWindow = false →
      (setupNotificationSystem (run es app0)).intervals = []) ∧
    ((run es app0).notificationSettings.enabled = true →
      (run es app0).notificationInWindow = true →
      (setupNotificationSystem (run es app0)).intervals =
        [((run es app0).timersCreated + 1,
          JSNum.mul (parseInt (run es app0).notificationSettings.interval) (JSNum.int 60000))]) ∧
    ((run es app0).notificationSettings.enabled = true →
      (run es app0).notificationInWindow = true →
      (setupNotificationSystem (setupNotificationSystem (run es app0))).intervals =
        [((run es app0).timersCreated + 2,
          JSNum.mul (parseInt (run es app0).notificationSettings.interval) (JSNum.int 60000))]) := by
  have h := run_oneTimer es app0 (Or.inl hnone)
  generalize run es app0 = app at h
  refine ⟨?_, ?_, ?_, ?_, ?_⟩
  · rcases h with h | ⟨handle, delay, _, hlive, _⟩
    · simp [h]
    · simp [hlive]
  · intro hoff
    rw [setupNotificationSystem_eq app h]
    simp [hoff]
  · intro hoff
    rw [setupNotificationSystem_eq app h]
    simp [hoff]
  · intro hon hsupported
    rw [setupNotificationSystem_eq app h]
    simp [hon, hsupported]
  · intro hon hsupported
    rw [setupNotificationSystem_eq _ (setupNotificationSystem_oneTimer app h),
      setupNotificationSystem_eq app h]
    simp [hon, hsupported]

/-- An instance of C10: permission is granted on an idle page, the interval is
set to 30 minutes, and the scheduler is set up once more: one timer of
1800000 ms is live. -/
theorem setupNotificationSystem_single_timer_witness :
    idleApp.intervals = [] ∧
    (run [.permissionAnswer Permission.granted, .updateSettings "30" "22:00" "07:00"]
      idleApp).notificationSettings.enabled = true ∧
    (run [.permissionAnswer Permission.granted, .updateSettings "30" "22:00" "07:00"]
      idleApp).notificationInWindow = true ∧
    (setupNotificationSystem
      (run [.permissionAnswer Permission.granted, .updateSettings "30" "22:00" "07:00"]
        idleApp)).intervals = [(3, JSNum.int 1800000)] :=
  ⟨by decide, by decide, by decide,
   (setupNotificationSystem_single_timer idleApp (by decide)
      [.permissionAnswer Permission.granted, .updateSettings "30" "22:00" "07:00"]).2.2.2.1
      (by decide) (by decide)⟩

end DadApp

/-! ## Persistence of the collection -/

namespace DadApp

/-- Reading a key right after writing it gives what was written. -/
theorem getItem_setItem (key value : String) (store : List (String × String)) :
    getItem key (setItem key value store) = some value := by
  simp [getItem, setItem]

/-- After `saveReminders()` the stored copy is up to date. -/
theorem saveReminders_stored (app : DadApp) : RemindersStored (saveReminders app) := by
  unfold RemindersStored saveReminders
  exact getItem_setItem _ _ _

/-- Scheduling the deferred dispatch touches neither the collection nor storage. -/
theorem scheduleNotification_stored (reminder : Reminder) (app : DadApp)
    (h : RemindersStored app) : RemindersStored (scheduleNotification reminder app) := by
  unfold scheduleNotification
  split
  · exact h
  · exact h

/-- When `find` locates a reminder, `toggleReminder` saves the collection. -/
theorem toggleReminder_stored_of_found (id : String) (app : DadApp) (r : Reminder)
    (hfound : app.reminders.find? (fun r => r.id == id) = some r) :
    RemindersStored (toggleReminder id app) := by
  unfold toggleReminder
  rw [hfound]
  dsimp only
  split
  · exact saveReminders_stored _
  · exact saveReminders_stored _

/-- C11: with local storage as explicit state, the entry `dadapp-reminders`
holds the serialization of the whole collection as it stands after
`addReminder` (always), after `toggleReminder` when a reminder has the id, and
after a confirmed `deleteReminder`; whenever one of the three changes the
collection the entry was overwritten to match; and when the entry was up to
date before, it is up to date after each of the three, whatever they did. -/
theorem reminders_flushed (app : DadApp) :
    (∀ reminder, RemindersStored (addReminder reminder app)) ∧
    (∀ id, (∃ r ∈ app.reminders, r.id = id) → RemindersStored (toggleReminder id app)) ∧
    (∀ id, RemindersStored (deleteReminder id true app)) ∧
    (∀ id, (toggleReminder id app).reminders ≠ app.reminders →
      RemindersStored (toggleReminder id app)) ∧
    (∀ id confirmed, (deleteReminder id confirmed app).reminders ≠ app.reminders →
      RemindersStored (deleteReminder id confirmed app)) ∧
    (RemindersStored app →
      (∀ id, RemindersStored (toggleReminder id app)) ∧
      (∀ id confirmed, RemindersStored (deleteReminder id confirmed app))) := by
  have htoggle : ∀ id, app.reminders.find? (fun r => r.id == id) = none →
      toggleReminder id app = app := by
    intro id hnone
    unfold toggleReminder
    rw [hnone]
  have hdelete : ∀ id, RemindersStored (deleteReminder id true app) := by
    intro id
    simp only [deleteReminder, cancelNotification, if_true]
    exact saveReminders_stored _
  refine ⟨?_, ?_, hdelete, ?_, ?_, ?_⟩
  · intro reminder
    exact scheduleNotification_stored _ _ (saveReminders_stored _)
  · rintro id ⟨r, hr, hid⟩
    cases hfound : app.reminders.find? (fun r => r.id == id) with
    | none =>
      rw [List.find?_eq_none] at hfound
      exact absurd (by simpa using hid) (hfound r hr)
    | some found => exact toggleReminder_stored_of_found id app found hfound
  · intro id hchanged
    cases hfound : app.reminders.find? (fun r => r.id == id) with
    | none => exact absurd (by rw [htoggle id hfound]) hchanged
    | some found => exact toggleReminder_stored_of_found id app found hfound
  · intro id confirmed hchanged
    cases confirmed with
    | true => exact hdelete id
    | false => exact absurd rfl hchanged
  · intro hsync
    constructor
    · intro id
      cases hfound : app.reminders.find? (fun r => r.id == id) with
      | none => rw [htoggle id hfound]; exact hsync
      | some found => exact toggleReminder_stored_of_found id app found hfound
    · intro id confirmed
      cases confirmed with
      | true => exact hdelete id
      | false => exact hsync

/-- An instance of C11: after an add the entry is up to date, and it still is
after a toggle of an id that no reminder has and after a declined delete. -/
theorem reminders_flushed_witness :
    RemindersStored (addReminder scenarioReminder (scenarioApp [])) ∧
    RemindersStored (toggleReminder "42" (addReminder scenarioReminder (scenarioApp []))) ∧
    RemindersStored
      (deleteReminder "1700000000000" false (addReminder scenarioReminder (scenarioApp []))) :=
  ⟨(reminders_flushed (scenarioApp [])).1 scenarioReminder,
   ((reminders_flushed (addReminder scenarioReminder (scenarioApp []))).2.2.2.2.2
      ((reminders_flushed (scenarioApp [])).1 scenarioReminder)).1 "42",
   ((reminders_flushed (addReminder scenarioReminder (scenarioApp []))).2.2.2.2.2
      ((reminders_flushed (scenarioApp [])).1 scenarioReminder)).2 "1700000000000" false⟩

end DadApp

/-! ## The "Mark Done" action -/

namespace DadApp

/-- After a change that keeps the found record findable, `find` locates the
changed record. -/
theorem find_modifyFound (p : Reminder → Bool) (f : Reminder → Reminder)
    (hf : ∀ r, p r = true → p (f r) = true) (l : List Reminder) :
    (modifyFound p f l).find? p = (l.find? p).map f := by
  induction l with
  | nil => rfl
  | cons r rs ih =>
    by_cases hp : p r = true
    · simp [modifyFound, List.find?, hp, hf r hp]
    · simp only [Bool.not_eq_true] at hp
      simp [modifyFound, List.find?, hp, ih]

/-- A list that starts with the pattern loses it at the front. -/
theorem stripFront_append (pattern s : List Char) :
    stripFront pattern (pattern ++ s) = some s := by
  induction pattern with
  | nil => cases s <;> rfl
  | cons p ps ih => simp [stripFront, ih]

/-- C13: handling `MARK_REMINDER_DONE` with reminder id `i` is a call of
`toggleReminder(i)`: the reminder located by `i` goes from completed to not
completed and active (and from not completed to completed), in its place in
the collection, so it is completed afterwards exactly when it was not before.
The message the service worker builds from a notification of a reminder
carries that reminder's id. -/
theorem markReminderDone_toggles (i : String) (app : DadApp) :
    handleServiceWorkerMessage (.markReminderDone i) app = toggleReminder i app ∧
    (∀ r, app.reminders.find? (fun r => r.id == i) = some r →
      (handleServiceWorkerMessage (.markReminderDone i) app).reminders.find?
          (fun r => r.id == i) =
        some { r with completed := !r.completed, active := r.completed }) ∧
    (∀ (pre post : List Reminder) (r : Reminder),
      app.reminders = pre ++ r :: post → (∀ x ∈ pre, x.id ≠ i) → r.id = i →
      r.completed = true →
      (handleServiceWorkerMessage (.markReminderDone i) app).reminders =
        pre ++ { r with completed := false, active := true } :: post) ∧
    (∀ r : Reminder,
      notificationclick "mark-done" (notificationFor r).tag = some (.markReminderDone r.id)) := by
  refine ⟨rfl, ?_, ?_, ?_⟩
  · intro r hr
    simp only [handleServiceWorkerMessage]
    rw [toggleReminder_reminders, find_modifyFound, hr, Option.map_some', flipCompleted_eq]
    intro x hx
    simpa [flipCompleted_id] using hx
  · intro pre post r hsplit hpre hr hdone
    simp only [handleServiceWorkerMessage]
    rw [toggleReminder_reminders, hsplit, modifyFound_append _ _ pre post r, flipCompleted_eq,
      hdone]
    · rfl
    · intro x hx
      simpa using hpre x hx
    · simpa using hr
  · intro r
    have hdata : (notificationFor r).tag.data = "reminder-".data ++ r.id.data := by
      simp [notificationFor]
    have hne : (notificationFor r).tag.data =
        'r' :: ("eminder-".data ++ r.id.data) := by
      rw [hdata]
      rfl
    have hreplace : replaceFirst "reminder-".data [] (notificationFor r).tag.data = r.id.data := by
      rw [hne]
      unfold replaceFirst
      have hstrip := stripFront_append "reminder-".data r.id.data
      have hcons : "reminder-".data ++ r.id.data = 'r' :: ("eminder-".data ++ r.id.data) := rfl
      rw [hcons] at hstrip
      rw [hstrip]
      rfl
    simp [notificationclick, hreplace]

/-- An instance of C13: a completed reminder, marked done from its
notification, is not completed and active afterwards. -/
theorem markReminderDone_toggles_witness :
    (scenarioApp [{ scenarioReminder with completed := true, active := false }]).reminders.find?
        (fun r => r.id == "1700000000000") =
      some { scenarioReminder with completed := true, active := false } ∧
    (handleServiceWorkerMessage (.markReminderDone "1700000000000")
        (scenarioApp [{ scenarioReminder with completed := true, active := false }])).reminders.find?
        (fun r => r.id == "1700000000000") = some scenarioReminder :=
  ⟨by decide,
   (markReminderDone_toggles "1700000000000"
      (scenarioApp [{ scenarioReminder with completed := true, active := false }])).2.1
      { scenarioReminder with completed := true, active := false } (by decide)⟩

end DadApp

/-! ## Loading from storage -/

/-- C12, as stated, fails: with the stored string `not json`, which is not
JSON, `loadReminders` and `loadNotificationSettings` both end with the
`SyntaxError` of `JSON.parse` instead of the empty collection and the default
settings. -/
theorem load_corrupt_counterexample :
    JSON.parse "not json" = .error .syntaxError ∧
    loadReminders [("dadapp-reminders", "not json")] = .error .syntaxError ∧
    loadReminders [("dadapp-reminders", "not json")] ≠ .ok (remindersValue []) ∧
    loadNotificationSettings [("dadapp-notification-settings", "not json")] =
      .error .syntaxError ∧
    loadNotificationSettings [("dadapp-notification-settings", "not json")] ≠
      .ok (settingsValue defaultSettings) := by
  have h1 : loadReminders [("dadapp-reminders", "not json")] = .error .syntaxError := by rfl
  have h2 : loadNotificationSettings [("dadapp-notification-settings", "not json")] =
      .error .syntaxError := by rfl
  refine ⟨by rfl, h1, ?_, h2, ?_⟩
  · rw [h1]
    intro h
    cases h
  · rw [h2]
    intro h
    cases h

/-- C12, amended: when nothing is stored under the key, or the empty string
is, `loadReminders` returns the empty collection and
`loadNotificationSettings` the default settings (enabled false, interval 15,
quiet from 22:00 to 07:00), with no exception; for every other stored string
both return what `JSON.parse` returns for it, so on a string that is not JSON
both end with its `SyntaxError`. -/
theorem load_fallback (store : List (String × String)) :
    (getItem "dadapp-reminders" store = none ∨ getItem "dadapp-reminders" store = some "" →
      loadReminders store = .ok (remindersValue [])) ∧
    (getItem "dadapp-notification-settings" store = none ∨
        getItem "dadapp-notification-settings" store = some "" →
      loadNotificationSettings store = .ok (settingsValue defaultSettings)) ∧
    defaultSettings =
      { enabled := false, interval := "15", quietStart := "22:00", quietEnd := "07:00" } ∧
    (∀ stored, getItem "dadapp-reminders" store = some stored → stored ≠ "" →
      loadReminders store = JSON.parse stored ∧
      ∀ e, JSON.parse stored = .error e → loadReminders store = .error e) ∧
    (∀ stored, getItem "dadapp-notification-settings" store = some stored → stored ≠ "" →
      loadNotificationSettings store = JSON.parse stored ∧
      ∀ e, JSON.parse stored = .error e → loadNotificationSettings store = .error e) := by
  refine ⟨?_, ?_, rfl, ?_, ?_⟩
  · intro h
    rcases h with h | h <;> simp [loadReminders, h]
  · intro h
    rcases h with h | h <;> simp [loadNotificationSettings, h]
  · intro stored hstored hne
    have hload : loadReminders store = JSON.parse stored := by
      simp [loadReminders, hstored, hne]
    exact ⟨hload, fun e he => by rw [hload, he]⟩
  · intro stored hstored hne
    have hload : loadNotificationSettings store = JSON.parse stored := by
      simp [loadNotificationSettings, hstored, hne]
    exact ⟨hload, fun e he => by rw [hload, he]⟩

/-- An instance of the amended C12: empty storage gives the empty collection,
and the stored collection of the scenario is read back as it was written. -/
theorem load_fallback_witness :
    getItem "dadapp-reminders" [] = none ∧
    loadReminders [] = .ok (remindersValue []) ∧
    loadReminders [("dadapp-reminders", jsonReminders [DadApp.scenarioReminder])] =
      JSON.parse (jsonReminders [DadApp.scenarioReminder]) ∧
    JSON.parse (jsonReminders [DadApp.scenarioReminder]) =
      .ok (remindersValue [DadApp.scenarioReminder]) :=
  ⟨rfl, (load_fallback []).1 (Or.inl rfl),
   ((load_fallback [("dadapp-reminders", jsonReminders [DadApp.scenarioReminder])]).2.2.2.1
      (jsonReminders [DadApp.scenarioReminder]) (by rfl) (by decide)).1,
   by rfl⟩
